import Mathlib

/-!
Verification of the core of the FPL squad optimizer (`fpl_optimizer.py`):
the value projection `calculate_xp`, the eligibility filter, the integer
model built by `solve_squad` (variables, constraints, solution extraction),
and the surrounding error behaviour.

Candidate records are modelled as association lists from column names to
cells, mirroring rows of the pandas DataFrame the program manipulates.
Rational numbers stand for the Python floats; all decimal literals used by
the program (0.6, 0.4, 0.8, 35.0, 5, ...) are exact in ℚ.
-/

namespace FplOpt

/-- A cell of a candidate record: numeric or string, as in a DataFrame. -/
inductive Val where
  | num (q : ℚ)
  | str (s : String)
deriving DecidableEq

/-- One candidate record: an association list from column name to cell,
mirroring one row of the DataFrame. -/
abbrev Row := List (String × Val)

/-- First value stored under column `k`, if any. -/
def lookupCol : Row → String → Option Val
  | [], _ => none
  | (k0, v) :: rest, k => if k0 = k then some v else lookupCol rest k

/-- Numeric read of a column (0 when absent or non-numeric). -/
def getNum (r : Row) (k : String) : ℚ :=
  match lookupCol r k with
  | some (Val.num q) => q
  | _ => 0

/-- String read of a column (empty when absent or non-string). -/
def getStr (r : Row) (k : String) : String :=
  match lookupCol r k with
  | some (Val.str s) => s
  | _ => ""

/-- Whether the record has a column named `k`. -/
def hasCol (r : Row) (k : String) : Bool :=
  (lookupCol r k).isSome

/-- Column assignment with pandas semantics: overwrite an existing column
in place, otherwise append the new column at the end. -/
def setCol (r : Row) (k : String) (v : Val) : Row :=
  if hasCol r k then r.map (fun p => if p.1 = k then (k, v) else p)
  else r ++ [(k, v)]

/-! ### The Metrics Engine (`calculate_xp`, source lines 49-64) -/

/-- Defensive-contribution bonus of one record: 0 for MID/FWD, otherwise
`min(0.8, influence/35.0) * 2.0` (source lines 54-57). -/
def get_defcon (row : Row) : ℚ :=
  if getStr row "pos_name" = "MID" ∨ getStr row "pos_name" = "FWD" then 0.0
  else (min 0.8 (getNum row "influence" / 35.0)) * 2.0

/-- The per-row effect of `calculate_xp` (source lines 49-64): attach the
columns `base_xp`, `defcon_xp` and `final_xp` in that order.  `defcon_xp`
is computed from the frame after `base_xp` was attached, and `final_xp`
from the frame after both were attached, exactly as the column
assignments in the source do. -/
def calculate_xp_row (r : Row) : Row :=
  let r1 := setCol r "base_xp"
    (Val.num (getNum r "form" * 0.6 + getNum r "points_per_game" * 0.4))
  let r2 := setCol r1 "defcon_xp" (Val.num (get_defcon r1))
  setCol r2 "final_xp"
    (Val.num ((getNum r2 "base_xp" * 1.0 + getNum r2 "defcon_xp" * 0.4) * 5))

/-- `calculate_xp` applied to the whole frame, row by row. -/
def calculate_xp (df : List Row) : List Row := df.map calculate_xp_row

/-! ### The Solver (`solve_squad`, source lines 69-164) -/

/-- Role tag attached to each extracted squad member (source lines
161-162); the spec calls the Bench role "Reserve". -/
inductive Role where
  | Starter
  | Bench
deriving DecidableEq

/-- Eligibility filter for the candidate pool (source lines 75-79):
available, or cheap fodder, or locked. -/
def eligible (locked : List ℚ) (r : Row) : Bool :=
  decide (50 ≤ getNum r "chance_of_playing_next_round") ||
  decide (getNum r "now_cost" ≤ 5.0) ||
  decide (getNum r "id" ∈ locked)

/-- The filtered pool the model is built over. -/
def poolOf (df : List Row) (locked : List ℚ) : List Row :=
  df.filter (eligible locked)

/-- The pool's candidate ids, in frame order (`pool.id.tolist()`). -/
def playersOf (df : List Row) (locked : List ℚ) : List ℚ :=
  (poolOf df locked).map (fun r => getNum r "id")

/-- Numeric column dictionary keyed by id
(`pool.set_index(id).col.to_dict()`): for a duplicated id the last row
wins, as in pandas. -/
def dictNum (pool : List Row) (col : String) (i : ℚ) : ℚ :=
  match pool.reverse.find? (fun r => decide (getNum r "id" = i)) with
  | some r => getNum r col
  | none => 0

/-- String column dictionary keyed by id. -/
def dictStr (pool : List Row) (col : String) (i : ℚ) : String :=
  match pool.reverse.find? (fun r => decide (getNum r "id" = i)) with
  | some r => getStr r col
  | none => ""

/-- Cost dictionary of the model (source line 86). -/
def costOf (df : List Row) (locked : List ℚ) : ℚ → ℚ :=
  dictNum (poolOf df locked) "now_cost"

/-- Category dictionary of the model (source line 87). -/
def posOf (df : List Row) (locked : List ℚ) : ℚ → String :=
  dictStr (poolOf df locked) "pos_name"

/-- Group dictionary of the model (source line 88). -/
def teamOf (df : List Row) (locked : List ℚ) : ℚ → String :=
  dictStr (poolOf df locked) "team_name"

/-- The 8 valid formation triples (DEF, MID, FWD), source lines 95-98. -/
def valid_formations : List (ℕ × ℕ × ℕ) :=
  [(3, 4, 3), (3, 5, 2), (4, 3, 3), (4, 4, 2),
   (4, 5, 1), (5, 3, 2), (5, 2, 3), (5, 4, 1)]

/-- A 0/1 assignment of the model's binary variables: start and bench
per candidate id, one selector per formation triple. -/
structure Assign where
  s : ℚ → Bool
  b : ℚ → Bool
  fv : ℕ × ℕ × ℕ → Bool

/-- Numeric value of a binary variable, as a rational. -/
def bval (x : Bool) : ℚ := if x then 1 else 0

/-- Numeric value of a binary variable, as a natural number. -/
def nval (x : Bool) : ℕ := if x then 1 else 0

/-- Number of supplied locked ids that are in the pool and belong to
group `t` (source line 146); duplicates in the supplied list count. -/
def lockedTeamCountOf (df : List Row) (locked : List ℚ) (t : String) : ℕ :=
  (locked.filter (fun pid =>
    decide (pid ∈ playersOf df locked) &&
    decide (teamOf df locked pid = t))).length

/-- The per-group selection cap (source lines 145-148). -/
def teamLimitOf (df : List Row) (locked : List ℚ) (t : String) : ℕ :=
  if 2 < lockedTeamCountOf df locked t then 3 else 2

/-- Total cost of an assignment (source line 117). -/
def totalCost (df : List Row) (locked : List ℚ) (α : Assign) : ℚ :=
  ((playersOf df locked).map
    (fun i => costOf df locked i * (bval (α.s i) + bval (α.b i)))).sum

/-- The constraint system `solve_squad` posts (source lines 109-150): an
assignment of the binary variables satisfies it exactly when it is a
feasible point of the integer model.  A solver run that reports status
Optimal returns such an assignment. -/
def Satisfies (df : List Row) (budget : ℚ) (force_spend : Bool)
    (locked : List ℚ) (α : Assign) : Prop :=
  (∀ pid ∈ locked, pid ∈ playersOf df locked → α.s pid = true) ∧
  totalCost df locked α ≤ budget ∧
  (force_spend = true → budget - 1.0 ≤ totalCost df locked α) ∧
  (∀ i ∈ playersOf df locked, nval (α.s i) + nval (α.b i) ≤ 1) ∧
  ((playersOf df locked).map (fun i => nval (α.s i))).sum = 11 ∧
  ((playersOf df locked).map (fun i => nval (α.b i))).sum = 4 ∧
  (((playersOf df locked).filter
      (fun i => decide (posOf df locked i = "GK"))).map
      (fun i => nval (α.b i))).sum = 1 ∧
  (valid_formations.map (fun f => nval (α.fv f))).sum = 1 ∧
  (((playersOf df locked).filter
      (fun i => decide (posOf df locked i = "DEF"))).map
      (fun i => nval (α.s i))).sum =
    (valid_formations.map (fun f => f.1 * nval (α.fv f))).sum ∧
  (((playersOf df locked).filter
      (fun i => decide (posOf df locked i = "MID"))).map
      (fun i => nval (α.s i))).sum =
    (valid_formations.map (fun f => f.2.1 * nval (α.fv f))).sum ∧
  (((playersOf df locked).filter
      (fun i => decide (posOf df locked i = "FWD"))).map
      (fun i => nval (α.s i))).sum =
    (valid_formations.map (fun f => f.2.2 * nval (α.fv f))).sum ∧
  (((playersOf df locked).filter
      (fun i => decide (posOf df locked i = "GK"))).map
      (fun i => nval (α.s i))).sum = 1 ∧
  (∀ t ∈ ((poolOf df locked).map (fun r => getStr r "team_name")).dedup,
    (((playersOf df locked).filter
        (fun i => decide (teamOf df locked i = t))).map
        (fun i => nval (α.s i) + nval (α.b i))).sum ≤ teamLimitOf df locked t)

instance decidableSatisfies (df : List Row) (budget : ℚ)
    (force_spend : Bool) (locked : List ℚ) (α : Assign) :
    Decidable (Satisfies df budget force_spend locked α) := by
  unfold Satisfies
  infer_instance

/-- Squad extraction of one candidate (source lines 160-162). -/
def extractFn (α : Assign) (i : ℚ) : Option (ℚ × Role) :=
  if α.s i then some (i, Role.Starter)
  else if α.b i then some (i, Role.Bench)
  else none

/-- The extracted squad (source lines 159-164). -/
def extract (df : List Row) (locked : List ℚ) (α : Assign) :
    List (ℚ × Role) :=
  (playersOf df locked).filterMap (extractFn α)

/-- Outcome of the external solver invocation (source line 153): the
solver environment can fail (an exception, e.g. when the CBC backend is
unavailable or errors internally), or the solve finishes with a status —
`optimal = true` standing for status Optimal — and variable values. -/
inductive SolverOutcome where
  | envError
  | finished (optimal : Bool) (α : Assign)

/-- `solve_squad` after the model is posted (source lines 152-164): an
environment failure is caught nowhere in the function and so propagates
to the caller as an error; a finished solve returns the extracted squad
on status Optimal and `none` on any other status. -/
def solve_squad (df : List Row) (budget : ℚ) (force_spend : Bool)
    (locked : List ℚ) (out : SolverOutcome) :
    Except Unit (Option (List (ℚ × Role))) :=
  match out with
  | SolverOutcome.envError => Except.error ()
  | SolverOutcome.finished optimal α =>
      if optimal then Except.ok (some (extract df locked α))
      else Except.ok none

/-! ### Spec-side formulation of the Value Projector, and concrete data -/

/-- The spec's `base_value = 0.6*form + 0.4*season_average_score`,
written from the spec's words for comparison with the source. -/
def base_value_spec (form savg : ℚ) : ℚ := 0.6 * form + 0.4 * savg

/-- The spec's defensive bonus: `min(0.8, influence/35.0) * 2.0` for
categories GK/DEF, 0 for MID/FWD; written from the spec's words. -/
def defensive_bonus_spec (category : String) (influence : ℚ) : ℚ :=
  if category = "GK" ∨ category = "DEF" then min 0.8 (influence / 35.0) * 2.0
  else 0

/-- The spec's `final_xp = (base_value + 0.4*defensive_bonus) * 5`,
written from the spec's words. -/
def final_xp_spec (form savg influence : ℚ) (category : String) : ℚ :=
  (base_value_spec form savg + 0.4 * defensive_bonus_spec category influence) * 5

/-- The roster's id column (`df.id`), used to state membership of a
locked id in the supplied candidate roster. -/
def rosterIds (df : List Row) : List ℚ := df.map (fun r => getNum r "id")

/-- Number of distinct supplied locked ids that are present in the
candidate roster. -/
def distinctLockedInRoster (df : List Row) (locked : List ℚ) : ℕ :=
  (locked.dedup.filter (fun pid => decide (pid ∈ rosterIds df))).length

/-- A candidate record with the columns the solver reads. -/
def mkRow (pid : ℚ) (category group : String) (cost chance : ℚ) : Row :=
  [("id", Val.num pid), ("pos_name", Val.str category),
   ("team_name", Val.str group), ("now_cost", Val.num cost),
   ("chance_of_playing_next_round", Val.num chance)]

/-- A concrete 15-candidate roster: 2 GK, 5 DEF, 5 MID, 3 FWD over 8
clubs, everyone available and costing 5.0. -/
def wDf : List Row :=
  [mkRow 1 "GK" "T1" 5 100, mkRow 2 "DEF" "T1" 5 100,
   mkRow 3 "DEF" "T2" 5 100, mkRow 4 "DEF" "T2" 5 100,
   mkRow 5 "DEF" "T3" 5 100, mkRow 6 "MID" "T3" 5 100,
   mkRow 7 "MID" "T4" 5 100, mkRow 8 "MID" "T4" 5 100,
   mkRow 9 "MID" "T5" 5 100, mkRow 10 "FWD" "T5" 5 100,
   mkRow 11 "FWD" "T6" 5 100, mkRow 12 "GK" "T6" 5 100,
   mkRow 13 "DEF" "T7" 5 100, mkRow 14 "MID" "T7" 5 100,
   mkRow 15 "FWD" "T8" 5 100]

/-- Starters of the concrete assignment: 1 GK, 4 DEF, 4 MID, 2 FWD. -/
def wStarters : List ℚ := [1, 2, 3, 4, 5, 6, 7, 8, 9, 10, 11]

/-- Bench of the concrete assignment: 1 GK, 1 DEF, 1 MID, 1 FWD. -/
def wBench : List ℚ := [12, 13, 14, 15]

/-- A concrete feasible assignment over `wDf` with formation (4,4,2). -/
def wAssign : Assign :=
  { s := fun i => decide (i ∈ wStarters)
  , b := fun i => decide (i ∈ wBench)
  , fv := fun f => decide (f = (4, 4, 2)) }

/-- The squad extracted from `wAssign` with no locks. -/
def wSq : List (ℚ × Role) := extract wDf [] wAssign

/-- The squad extracted from `wAssign` with candidate 1 locked. -/
def wSq1 : List (ℚ × Role) := extract wDf [1] wAssign

/-- The squad extracted from `wAssign` with the roster-foreign id 99
locked. -/
def wSq99 : List (ℚ × Role) := extract wDf [99] wAssign

/-- Twelve distinct locked ids, all present in `wDf`. -/
def wLocked12 : List ℚ := [1, 2, 3, 4, 5, 6, 7, 8, 9, 10, 11, 12]

/-- A concrete DEF record for evaluating the Value Projector. -/
def c5Row : Row :=
  [("id", Val.num 1), ("pos_name", Val.str "DEF"), ("form", Val.num 2),
   ("points_per_game", Val.num 1), ("influence", Val.num 70)]

/-- A concrete MID record with negative form. -/
def c7Row : Row :=
  [("id", Val.num 2), ("pos_name", Val.str "MID"), ("form", Val.num (-1)),
   ("points_per_game", Val.num 0), ("influence", Val.num 0)]

/-- A concrete FWD record with non-negative attributes. -/
def c7wRow : Row :=
  [("id", Val.num 4), ("pos_name", Val.str "FWD"), ("form", Val.num 3),
   ("points_per_game", Val.num 2), ("influence", Val.num 10)]

/-- A concrete MID record without derived columns. -/
def c9Row : Row :=
  [("id", Val.num 3), ("pos_name", Val.str "MID"), ("form", Val.num 2),
   ("points_per_game", Val.num 3), ("influence", Val.num 4)]

/-! ### Lemmas about record lookup and column assignment -/

theorem lookupCol_replace_self (k : String) (v : Val) (r : Row)
    (h : hasCol r k = true) :
    lookupCol (r.map (fun p => if p.1 = k then (k, v) else p)) k = some v := by
  induction r with
  | nil => simp [hasCol, lookupCol] at h
  | cons p t ih =>
    obtain ⟨k0, v0⟩ := p
    by_cases hk : k0 = k
    · subst hk
      have he : (if (k0, v0).1 = k0 then (k0, v) else (k0, v0)) = (k0, v) :=
        if_pos rfl
      simp only [List.map_cons, he]
      simp [lookupCol]
    · have he : (if (k0, v0).1 = k then (k, v) else (k0, v0)) = (k0, v0) := by
        simp [hk]
      have ht : hasCol t k = true := by
        simpa [hasCol, lookupCol, hk] using h
      simp only [List.map_cons, he]
      simpa [lookupCol, hk] using ih ht

theorem lookupCol_append_right (k : String) (v : Val) (r : Row)
    (h : lookupCol r k = none) :
    lookupCol (r ++ [(k, v)]) k = some v := by
  induction r with
  | nil => simp [lookupCol]
  | cons p t ih =>
    obtain ⟨k0, v0⟩ := p
    by_cases hk : k0 = k
    · simp [lookupCol, hk] at h
    · have ht : lookupCol t k = none := by
        simpa [lookupCol, hk] using h
      simpa [lookupCol, hk] using ih ht

theorem lookupCol_setCol_self (r : Row) (k : String) (v : Val) :
    lookupCol (setCol r k v) k = some v := by
  unfold setCol
  by_cases h : hasCol r k = true
  · simpa [h] using lookupCol_replace_self k v r h
  · have h0 : lookupCol r k = none := by
      cases hl : lookupCol r k with
      | none => rfl
      | some w => exact absurd (by simp [hasCol, hl]) h
    simpa [h] using lookupCol_append_right k v r h0

theorem lookupCol_replace_ne (k k1 : String) (v : Val) (r : Row)
    (h : k1 ≠ k) :
    lookupCol (r.map (fun p => if p.1 = k then (k, v) else p)) k1 =
      lookupCol r k1 := by
  induction r with
  | nil => rfl
  | cons p t ih =>
    obtain ⟨k0, v0⟩ := p
    by_cases hk : k0 = k
    · subst hk
      have hne : ¬ k0 = k1 := fun hh => h hh.symm
      have he : (if (k0, v0).1 = k0 then (k0, v) else (k0, v0)) = (k0, v) :=
        if_pos rfl
      simp only [List.map_cons, he]
      simp [lookupCol, hne, ih]
    · have he : (if (k0, v0).1 = k then (k, v) else (k0, v0)) = (k0, v0) := by
        simp [hk]
      simp only [List.map_cons, he]
      by_cases hk1 : k0 = k1
      · simp [lookupCol, hk1]
      · simp [lookupCol, hk1, ih]

theorem lookupCol_append_ne (k k1 : String) (v : Val) (r : Row)
    (h : k1 ≠ k) :
    lookupCol (r ++ [(k, v)]) k1 = lookupCol r k1 := by
  induction r with
  | nil => simp [lookupCol, Ne.symm h]
  | cons p t ih =>
    obtain ⟨k0, v0⟩ := p
    by_cases hk1 : k0 = k1
    · simp [lookupCol, hk1]
    · simp [lookupCol, hk1, ih]

theorem lookupCol_setCol_ne (r : Row) (k k1 : String) (v : Val)
    (h : k1 ≠ k) :
    lookupCol (setCol r k v) k1 = lookupCol r k1 := by
  unfold setCol
  by_cases hc : hasCol r k = true
  · simpa [hc] using lookupCol_replace_ne k k1 v r h
  · simpa [hc] using lookupCol_append_ne k k1 v r h

theorem getNum_setCol_self (r : Row) (k : String) (q : ℚ) :
    getNum (setCol r k (Val.num q)) k = q := by
  simp [getNum, lookupCol_setCol_self]

theorem getNum_setCol_ne (r : Row) (k k1 : String) (v : Val) (h : k1 ≠ k) :
    getNum (setCol r k v) k1 = getNum r k1 := by
  simp [getNum, lookupCol_setCol_ne r k k1 v h]

theorem getStr_setCol_ne (r : Row) (k k1 : String) (v : Val) (h : k1 ≠ k) :
    getStr (setCol r k v) k1 = getStr r k1 := by
  simp [getStr, lookupCol_setCol_ne r k k1 v h]

theorem hasCol_setCol (r : Row) (k k1 : String) (v : Val)
    (h : hasCol (setCol r k v) k1 = true) :
    k1 = k ∨ hasCol r k1 = true := by
  by_cases hk : k1 = k
  · exact Or.inl hk
  · right
    simpa [hasCol, lookupCol_setCol_ne r k k1 v hk] using h

theorem hasCol_setCol_self (r : Row) (k : String) (v : Val) :
    hasCol (setCol r k v) k = true := by
  rw [hasCol, lookupCol_setCol_self]
  rfl

theorem hasCol_setCol_ne (r : Row) (k k1 : String) (v : Val)
    (h : k1 ≠ k) :
    hasCol (setCol r k v) k1 = hasCol r k1 := by
  rw [hasCol, hasCol, lookupCol_setCol_ne r k k1 v h]

/-! ### Lemmas about the Metrics Engine -/

theorem get_defcon_setCol_base (r : Row) (v : Val) :
    get_defcon (setCol r "base_xp" v) = get_defcon r := by
  unfold get_defcon
  rw [getStr_setCol_ne r "base_xp" "pos_name" v (by decide),
      getNum_setCol_ne r "base_xp" "influence" v (by decide)]

theorem calculate_xp_row_final (r : Row) :
    getNum (calculate_xp_row r) "final_xp" =
      ((getNum r "form" * 0.6 + getNum r "points_per_game" * 0.4) * 1.0 +
        get_defcon r * 0.4) * 5 := by
  unfold calculate_xp_row
  rw [getNum_setCol_self]
  rw [getNum_setCol_ne _ "defcon_xp" "base_xp" _ (by decide),
      getNum_setCol_self, getNum_setCol_self, get_defcon_setCol_base]

theorem calculate_xp_row_defcon (r : Row) :
    getNum (calculate_xp_row r) "defcon_xp" = get_defcon r := by
  unfold calculate_xp_row
  rw [getNum_setCol_ne _ "final_xp" "defcon_xp" _ (by decide),
      getNum_setCol_self, get_defcon_setCol_base]

/-! ### Counting lemmas relating sums of binary variables, counts, and
the extracted squad -/

theorem sum_nval_eq_countP {γ : Type} (l : List γ) (p : γ → Bool) :
    (l.map (fun i => nval (p i))).sum = l.countP p := by
  induction l with
  | nil => rfl
  | cons i t ih =>
    rw [List.map_cons, List.sum_cons, List.countP_cons, ih]
    cases hp : p i <;> simp [nval, hp] <;> omega

theorem countP_extract (α : Assign) (l : List ℚ) (Q : ℚ × Role → Bool) :
    (l.filterMap (extractFn α)).countP Q =
      l.countP (fun i =>
        if α.s i then Q (i, Role.Starter)
        else if α.b i then Q (i, Role.Bench)
        else false) := by
  induction l with
  | nil => rfl
  | cons i t ih =>
    cases hs : α.s i
    · cases hb : α.b i
      · simp [extractFn, hs, hb, List.countP_cons, ih]
      · simp [extractFn, hs, hb, List.countP_cons, ih]
    · simp [extractFn, hs, List.countP_cons, ih]

theorem length_extract_countP (α : Assign) (l : List ℚ) :
    (l.filterMap (extractFn α)).length =
      l.countP (fun i => α.s i || α.b i) := by
  induction l with
  | nil => rfl
  | cons i t ih =>
    cases hs : α.s i
    · cases hb : α.b i
      · simp [extractFn, hs, hb, List.countP_cons, ih]
      · simp [extractFn, hs, hb, List.countP_cons, ih]
    · simp [extractFn, hs, List.countP_cons, ih]

theorem countP_or_of_excl (α : Assign) (l : List ℚ)
    (hd : ∀ i ∈ l, nval (α.s i) + nval (α.b i) ≤ 1) :
    l.countP (fun i => α.s i || α.b i) =
      l.countP (fun i => α.s i) + l.countP (fun i => α.b i) := by
  induction l with
  | nil => rfl
  | cons i t ih =>
    have hdt : ∀ j ∈ t, nval (α.s j) + nval (α.b j) ≤ 1 :=
      fun j hj => hd j (List.mem_cons_of_mem _ hj)
    have hdi := hd i (List.mem_cons_self i t)
    cases hs : α.s i
    · cases hb : α.b i
      · simp [List.countP_cons, hs, hb, ih hdt]
      · simp [List.countP_cons, hs, hb, ih hdt]
        omega
    · have hb : α.b i = false := by
        cases hb : α.b i
        · rfl
        · rw [hs, hb] at hdi
          simp [nval] at hdi
      simp [List.countP_cons, hs, hb, ih hdt]
      omega

theorem sum_cost_extract (α : Assign) (c : ℚ → ℚ) (l : List ℚ)
    (hd : ∀ i ∈ l, nval (α.s i) + nval (α.b i) ≤ 1) :
    ((l.filterMap (extractFn α)).map (fun e => c e.1)).sum =
      (l.map (fun i => c i * (bval (α.s i) + bval (α.b i)))).sum := by
  induction l with
  | nil => rfl
  | cons i t ih =>
    have hdt : ∀ j ∈ t, nval (α.s j) + nval (α.b j) ≤ 1 :=
      fun j hj => hd j (List.mem_cons_of_mem _ hj)
    have hdi := hd i (List.mem_cons_self i t)
    cases hs : α.s i
    · cases hb : α.b i
      · simp [extractFn, hs, hb, bval, ih hdt]
      · simp [extractFn, hs, hb, bval, ih hdt]
    · have hb : α.b i = false := by
        cases hb : α.b i
        · rfl
        · rw [hs, hb] at hdi
          simp [nval] at hdi
      simp [extractFn, hs, hb, bval, ih hdt]

theorem sum_weight_eq_zero {γ : Type} (l : List γ) (p : γ → Bool)
    (g : γ → ℕ) (h : l.countP p = 0) :
    (l.map (fun f => g f * nval (p f))).sum = 0 := by
  induction l with
  | nil => rfl
  | cons i t ih =>
    rw [List.countP_cons] at h
    rw [List.map_cons, List.sum_cons]
    cases hp : p i
    · simp only [hp] at h
      rw [ih (by omega)]
      simp [nval, hp]
    · simp [hp] at h

theorem sum_weight_of_countP_one {γ : Type} (l : List γ) (p : γ → Bool)
    (h : l.countP p = 1) :
    ∃ x ∈ l, p x = true ∧ ∀ g : γ → ℕ,
      (l.map (fun f => g f * nval (p f))).sum = g x := by
  induction l with
  | nil => exact absurd h (by simp)
  | cons i t ih =>
    rw [List.countP_cons] at h
    cases hp : p i
    · simp [hp] at h
      obtain ⟨x, hx, hpx, hsum⟩ := ih h
      refine ⟨x, List.mem_cons_of_mem _ hx, hpx, fun g => ?_⟩
      rw [List.map_cons, List.sum_cons, hsum g]
      simp [nval, hp]
    · rw [hp, if_pos rfl] at h
      have ht : t.countP p = 0 := by omega
      refine ⟨i, List.mem_cons_self i t, hp, fun g => ?_⟩
      rw [List.map_cons, List.sum_cons, sum_weight_eq_zero t p g ht]
      simp [nval, hp]

theorem nodup_length_le_countP (d l : List ℚ) (p : ℚ → Bool)
    (hn : d.Nodup) (h : ∀ x ∈ d, x ∈ l ∧ p x = true) :
    d.length ≤ l.countP p := by
  classical
  have hsub : d.toFinset ⊆ (l.filter p).toFinset := by
    intro x hx
    rw [List.mem_toFinset] at hx
    rw [List.mem_toFinset, List.mem_filter]
    exact h x hx
  calc d.length = d.toFinset.card := (List.toFinset_card_of_nodup hn).symm
    _ ≤ (l.filter p).toFinset.card := Finset.card_le_card hsub
    _ ≤ (l.filter p).length := List.toFinset_card_le _
    _ = l.countP p := (List.countP_eq_length_filter p l).symm

/-! ### Membership lemmas about the pool and the id-keyed dictionaries -/

theorem locked_mem_players (df : List Row) (locked : List ℚ) (pid : ℚ)
    (hpid : pid ∈ locked) (hros : pid ∈ df.map (fun r => getNum r "id")) :
    pid ∈ playersOf df locked := by
  obtain ⟨r, hr, hid⟩ := List.mem_map.mp hros
  have hel : eligible locked r = true := by
    unfold eligible
    have : decide (getNum r "id" ∈ locked) = true := by
      rw [hid]; exact decide_eq_true hpid
    simp [this]
  exact List.mem_map.mpr ⟨r, List.mem_filter.mpr ⟨hr, hel⟩, hid⟩

theorem dictStr_mem (pool : List Row) (col : String) (i : ℚ)
    (h : i ∈ pool.map (fun r => getNum r "id")) :
    ∃ r ∈ pool, getNum r "id" = i ∧ dictStr pool col i = getStr r col := by
  obtain ⟨r0, hr0, hid0⟩ := List.mem_map.mp h
  cases hf : pool.reverse.find? (fun r => decide (getNum r "id" = i)) with
  | none =>
    exfalso
    have := List.find?_eq_none.mp hf r0 (List.mem_reverse.mpr hr0)
    exact this (decide_eq_true hid0)
  | some r =>
    refine ⟨r, List.mem_reverse.mp (List.mem_of_find?_eq_some hf), ?_, ?_⟩
    · have hp := List.find?_some hf
      simpa using hp
    · unfold dictStr
      rw [hf]

/-! ### The concrete assignment satisfies the constraint system -/

theorem bval_add_of_nval (x y : Bool) (h : nval x + nval y = 1) :
    bval x + bval y = 1 := by
  cases x <;> cases y
  · exact absurd h (by decide)
  · norm_num [bval]
  · norm_num [bval]
  · exact absurd h (by decide)

theorem sum_const_of_eq {l : List ℚ} {f : ℚ → ℚ} {c : ℚ}
    (h : ∀ i ∈ l, f i = c) : (l.map f).sum = c * l.length := by
  induction l with
  | nil => simp
  | cons i t ih =>
    have ht : ∀ j ∈ t, f j = c := fun j hj => h j (List.mem_cons_of_mem _ hj)
    rw [List.map_cons, List.sum_cons, ih ht, h i (List.mem_cons_self i t),
      List.length_cons]
    push_cast
    ring

theorem totalCost_pool_congr (df : List Row) (l1 l2 : List ℚ) (α : Assign)
    (h : poolOf df l1 = poolOf df l2) :
    totalCost df l1 α = totalCost df l2 α := by
  unfold totalCost playersOf costOf
  rw [h]

theorem wTotalCost : totalCost wDf [] wAssign = 75 := by
  have hcost : ∀ i ∈ playersOf wDf [], costOf wDf [] i = 5 := by decide
  have hone : ∀ i ∈ playersOf wDf [],
      nval (wAssign.s i) + nval (wAssign.b i) = 1 := by decide
  have hterm : ∀ i ∈ playersOf wDf [],
      costOf wDf [] i * (bval (wAssign.s i) + bval (wAssign.b i)) = 5 := by
    intro i hi
    rw [hcost i hi, bval_add_of_nval _ _ (hone i hi), mul_one]
  rw [totalCost, sum_const_of_eq hterm,
    show (playersOf wDf []).length = 15 from by decide]
  norm_num

theorem wSat : Satisfies wDf 100 false [] wAssign := by
  refine ⟨by decide, ?_, ?_, by decide, by decide, by decide, by decide,
    by decide, by decide, by decide, by decide, by decide, by decide⟩
  · rw [wTotalCost]
    norm_num
  · intro h
    exact absurd h (by decide)

theorem wSat1 : Satisfies wDf 100 false [1] wAssign := by
  have hp : poolOf wDf [1] = poolOf wDf [] := by decide
  refine ⟨by decide, ?_, ?_, by decide, by decide, by decide, by decide,
    by decide, by decide, by decide, by decide, by decide, by decide⟩
  · rw [totalCost_pool_congr wDf [1] [] wAssign hp, wTotalCost]
    norm_num
  · intro h
    exact absurd h (by decide)

theorem wSat99 : Satisfies wDf 100 false [99] wAssign := by
  have hp : poolOf wDf [99] = poolOf wDf [] := by decide
  refine ⟨by decide, ?_, ?_, by decide, by decide, by decide, by decide,
    by decide, by decide, by decide, by decide, by decide, by decide⟩
  · rw [totalCost_pool_congr wDf [99] [] wAssign hp, wTotalCost]
    norm_num
  · intro h
    exact absurd h (by decide)

/-! ### Claims about the Value Projector, the filter, and failure modes -/

/-- C5: for every record whose category is one of GK/DEF/MID/FWD, the
Value Projector attaches `final_xp = (base_value + 0.4*defensive_bonus) * 5`
with `base_value = 0.6*form + 0.4*season_average_score` and
`defensive_bonus = 0` for MID/FWD and `min(0.8, influence/35.0) * 2.0`
for GK/DEF, as the spec states. -/
theorem calculate_xp_matches_spec (r : Row)
    (hcat : getStr r "pos_name" ∈ (["GK", "DEF", "MID", "FWD"] : List String)) :
    getNum (calculate_xp_row r) "final_xp" =
      final_xp_spec (getNum r "form") (getNum r "points_per_game")
        (getNum r "influence") (getStr r "pos_name") := by
  rw [calculate_xp_row_final]
  unfold final_xp_spec base_value_spec defensive_bonus_spec get_defcon
  simp only [List.mem_cons, List.not_mem_nil, or_false] at hcat
  rcases hcat with h | h | h | h <;> rw [h]
  · rw [if_neg (by decide : ¬ ("GK" = "MID" ∨ "GK" = "FWD")),
      if_pos (by decide : ("GK" = "GK" ∨ "GK" = "DEF"))]
    ring
  · rw [if_neg (by decide : ¬ ("DEF" = "MID" ∨ "DEF" = "FWD")),
      if_pos (by decide : ("DEF" = "GK" ∨ "DEF" = "DEF"))]
    ring
  · rw [if_pos (by decide : ("MID" = "MID" ∨ "MID" = "FWD")),
      if_neg (by decide : ¬ ("MID" = "GK" ∨ "MID" = "DEF"))]
    ring
  · rw [if_pos (by decide : ("FWD" = "MID" ∨ "FWD" = "FWD")),
      if_neg (by decide : ¬ ("FWD" = "GK" ∨ "FWD" = "DEF"))]
    ring

theorem calculate_xp_matches_spec_witness :
    getStr c5Row "pos_name" ∈ (["GK", "DEF", "MID", "FWD"] : List String) ∧
    getNum (calculate_xp_row c5Row) "final_xp" =
      final_xp_spec (getNum c5Row "form") (getNum c5Row "points_per_game")
        (getNum c5Row "influence") (getStr c5Row "pos_name") :=
  ⟨by decide, calculate_xp_matches_spec c5Row (by decide)⟩

/-- C6: a solver-environment failure surfaces from `solve_squad` as an
error, distinct from the `ok none` outcome that a finished-but-not-optimal
(e.g. infeasible) solve yields, so the caller can tell "no solution
exists" from "could not attempt to solve". -/
theorem solver_failure_distinct (df : List Row) (budget : ℚ)
    (force_spend : Bool) (locked : List ℚ) (α : Assign) :
    solve_squad df budget force_spend locked SolverOutcome.envError =
      Except.error () ∧
    solve_squad df budget force_spend locked
      (SolverOutcome.finished false α) = Except.ok none ∧
    solve_squad df budget force_spend locked SolverOutcome.envError ≠
      solve_squad df budget force_spend locked
        (SolverOutcome.finished false α) := by
  refine ⟨rfl, rfl, ?_⟩
  intro h
  simp [solve_squad] at h

/-- C7 counterexample: on a MID record with form −1 (and zero other
attributes) the Value Projector yields `final_xp = −3 < 0`, so the
claimed non-negativity over all numeric attribute sets fails. -/
theorem calculate_xp_negative_cex :
    getNum (calculate_xp_row c7Row) "final_xp" = -3 ∧
    ¬ 0 ≤ getNum (calculate_xp_row c7Row) "final_xp" := by
  have hd : get_defcon c7Row = 0.0 := by
    unfold get_defcon
    rw [if_pos (by decide :
      getStr c7Row "pos_name" = "MID" ∨ getStr c7Row "pos_name" = "FWD")]
  have he : getNum (calculate_xp_row c7Row) "final_xp" = -3 := by
    rw [calculate_xp_row_final, hd,
      show getNum c7Row "form" = -1 from by decide,
      show getNum c7Row "points_per_game" = 0 from by decide]
    norm_num
  refine ⟨he, ?_⟩
  rw [he]
  norm_num

/-- C7 (amended): the Value Projector is total (a Lean function); for
every MID/FWD record — with no condition on the attributes — the
attached defensive bonus is exactly zero; and `final_xp` is non-negative
whenever form, season average and influence are non-negative (it can be
negative for negative attributes). -/
theorem calculate_xp_total_nonneg (r : Row) :
    ((getStr r "pos_name" = "MID" ∨ getStr r "pos_name" = "FWD") →
      getNum (calculate_xp_row r) "defcon_xp" = 0) ∧
    (0 ≤ getNum r "form" → 0 ≤ getNum r "points_per_game" →
      0 ≤ getNum r "influence" →
      0 ≤ getNum (calculate_xp_row r) "final_xp") := by
  constructor
  · intro hmf
    rw [calculate_xp_row_defcon]
    unfold get_defcon
    rw [if_pos hmf]
    norm_num
  · intro hf hp hi
    rw [calculate_xp_row_final]
    have hb : 0 ≤ getNum r "form" * 0.6 + getNum r "points_per_game" * 0.4 :=
      add_nonneg (mul_nonneg hf (by norm_num)) (mul_nonneg hp (by norm_num))
    have hd : 0 ≤ get_defcon r := by
      unfold get_defcon
      split
      · norm_num
      · refine mul_nonneg (le_min (by norm_num) ?_) (by norm_num)
        positivity
    have h1 : 0 ≤ (getNum r "form" * 0.6 +
        getNum r "points_per_game" * 0.4) * 1.0 :=
      mul_nonneg hb (by norm_num)
    exact mul_nonneg (add_nonneg h1 (mul_nonneg hd (by norm_num)))
      (by norm_num)

theorem calculate_xp_total_nonneg_witness :
    getNum (calculate_xp_row c7Row) "defcon_xp" = 0 ∧
    0 ≤ getNum (calculate_xp_row c7wRow) "final_xp" :=
  ⟨(calculate_xp_total_nonneg c7Row).1 (by decide),
    (calculate_xp_total_nonneg c7wRow).2 (by decide) (by decide) (by decide)⟩

/-- C8: the eligibility filter is monotone in the locked set — a record
in the pool for locked set `L` remains in the pool after locking any
further id `x`, whether or not `x` names a roster record; and any
roster record whose id is `x` is in the pool for the enlarged locked
set. -/
theorem eligibility_monotone (df : List Row) (L : List ℚ) (x : ℚ)
    (r : Row) :
    (r ∈ poolOf df L → r ∈ poolOf df (x :: L)) ∧
    (r ∈ df → getNum r "id" = x → r ∈ poolOf df (x :: L)) := by
  constructor
  · intro h1
    rw [poolOf, List.mem_filter] at h1 ⊢
    refine ⟨h1.1, ?_⟩
    have he := h1.2
    unfold eligible at he ⊢
    simp only [Bool.or_eq_true] at he ⊢
    rcases he with (h | h) | h
    · exact Or.inl (Or.inl h)
    · exact Or.inl (Or.inr h)
    · exact Or.inr
        (decide_eq_true (List.mem_cons_of_mem x (of_decide_eq_true h)))
  · intro h2 h3
    rw [poolOf, List.mem_filter]
    refine ⟨h2, ?_⟩
    unfold eligible
    simp only [Bool.or_eq_true]
    refine Or.inr (decide_eq_true ?_)
    rw [h3]
    exact List.mem_cons_self x L

theorem eligibility_monotone_witness :
    mkRow 1 "GK" "T1" 5 100 ∈ poolOf wDf ((99 : ℚ) :: []) ∧
    mkRow 1 "GK" "T1" 5 100 ∈ poolOf wDf ((1 : ℚ) :: []) :=
  ⟨(eligibility_monotone wDf [] 99 (mkRow 1 "GK" "T1" 5 100)).1 (by decide),
    (eligibility_monotone wDf [] 1 (mkRow 1 "GK" "T1" 5 100)).2
      (by decide) (by decide)⟩

/-- C9 counterexample: the projection attaches the intermediate column
`base_xp` (a field other than `final_xp`) to a record that did not have
it, so "no field other than final_xp is mutated or added" fails. -/
theorem calculate_xp_frame_cex :
    hasCol (calculate_xp_row c9Row) "base_xp" = true ∧
    hasCol c9Row "base_xp" = false ∧
    "base_xp" ≠ "final_xp" :=
  ⟨by decide, by decide, by decide⟩

/-- C9 (amended): the projection attaches exactly the derived columns
`base_xp`, `defcon_xp` and `final_xp` — all three are present in the
result — every column other than those three is left unchanged, and no
further column is added. -/
theorem calculate_xp_frame (r : Row) (k : String) :
    (k ≠ "base_xp" → k ≠ "defcon_xp" → k ≠ "final_xp" →
      lookupCol (calculate_xp_row r) k = lookupCol r k) ∧
    hasCol (calculate_xp_row r) "base_xp" = true ∧
    hasCol (calculate_xp_row r) "defcon_xp" = true ∧
    hasCol (calculate_xp_row r) "final_xp" = true ∧
    (∀ k2 : String, hasCol (calculate_xp_row r) k2 = true →
      hasCol r k2 = true ∨ k2 = "base_xp" ∨ k2 = "defcon_xp" ∨
        k2 = "final_xp") := by
  refine ⟨?_, ?_, ?_, ?_, ?_⟩
  · intro h1 h2 h3
    simp only [calculate_xp_row]
    rw [lookupCol_setCol_ne _ _ _ _ h3, lookupCol_setCol_ne _ _ _ _ h2,
      lookupCol_setCol_ne _ _ _ _ h1]
  · simp only [calculate_xp_row]
    rw [hasCol_setCol_ne, hasCol_setCol_ne]
    · exact hasCol_setCol_self r "base_xp" _
    · decide
    · decide
  · simp only [calculate_xp_row]
    rw [hasCol_setCol_ne]
    · exact hasCol_setCol_self _ "defcon_xp" _
    · decide
  · simp only [calculate_xp_row]
    exact hasCol_setCol_self _ "final_xp" _
  · intro k2 hk2
    simp only [calculate_xp_row] at hk2
    rcases hasCol_setCol _ _ _ _ hk2 with he | hk2a
    · exact Or.inr (Or.inr (Or.inr he))
    rcases hasCol_setCol _ _ _ _ hk2a with he | hk2b
    · exact Or.inr (Or.inr (Or.inl he))
    rcases hasCol_setCol _ _ _ _ hk2b with he | hk2c
    · exact Or.inr (Or.inl he)
    · exact Or.inl hk2c

theorem calculate_xp_frame_witness :
    lookupCol (calculate_xp_row c9Row) "form" = lookupCol c9Row "form" :=
  (calculate_xp_frame c9Row "form").1 (by decide) (by decide) (by decide)

/-! ### Claims about feasible solves -/

theorem solve_squad_ok (df : List Row) (budget : ℚ) (force_spend : Bool)
    (locked : List ℚ) (α : Assign) (sq : List (ℚ × Role))
    (hret : solve_squad df budget force_spend locked
      (SolverOutcome.finished true α) = Except.ok (some sq)) :
    sq = extract df locked α := by
  simp [solve_squad] at hret
  exact hret.symm

theorem extract_starter_count (df : List Row) (locked : List ℚ)
    (α : Assign) :
    (extract df locked α).countP (fun e => decide (e.2 = Role.Starter)) =
      (playersOf df locked).countP (fun i => α.s i) := by
  rw [extract, countP_extract]
  apply List.countP_congr
  intro i hi
  cases hs : α.s i <;> cases hb : α.b i <;> simp [hs, hb]

theorem extract_bench_count (df : List Row) (locked : List ℚ) (α : Assign)
    (hphys : ∀ i ∈ playersOf df locked,
      nval (α.s i) + nval (α.b i) ≤ 1) :
    (extract df locked α).countP (fun e => decide (e.2 = Role.Bench)) =
      (playersOf df locked).countP (fun i => α.b i) := by
  rw [extract, countP_extract]
  apply List.countP_congr
  intro i hi
  cases hs : α.s i
  · cases hb : α.b i
    · simp [hs, hb]
    · simp [hs, hb]
  · cases hb : α.b i
    · simp [hs, hb]
    · exfalso
      have hd := hphys i hi
      rw [hs, hb] at hd
      simp [nval] at hd

theorem extract_starter_pos_count (df : List Row) (locked : List ℚ)
    (α : Assign) (cat : String) :
    (extract df locked α).countP (fun e =>
        decide (e.2 = Role.Starter) && decide (posOf df locked e.1 = cat)) =
      ((playersOf df locked).filter
        (fun i => decide (posOf df locked i = cat))).countP
        (fun i => α.s i) := by
  rw [extract, countP_extract, List.countP_filter]
  apply List.countP_congr
  intro i hi
  cases hs : α.s i <;> cases hb : α.b i <;> simp [hs, hb]

theorem extract_bench_pos_count (df : List Row) (locked : List ℚ)
    (α : Assign) (cat : String)
    (hphys : ∀ i ∈ playersOf df locked,
      nval (α.s i) + nval (α.b i) ≤ 1) :
    (extract df locked α).countP (fun e =>
        decide (e.2 = Role.Bench) && decide (posOf df locked e.1 = cat)) =
      ((playersOf df locked).filter
        (fun i => decide (posOf df locked i = cat))).countP
        (fun i => α.b i) := by
  rw [extract, countP_extract, List.countP_filter]
  apply List.countP_congr
  intro i hi
  cases hs : α.s i
  · cases hb : α.b i
    · simp [hs, hb]
    · simp [hs, hb]
  · cases hb : α.b i
    · simp [hs, hb]
    · exfalso
      have hd := hphys i hi
      rw [hs, hb] at hd
      simp [nval] at hd

theorem extract_team_count (df : List Row) (locked : List ℚ) (α : Assign)
    (t : String) :
    (extract df locked α).countP
        (fun e => decide (teamOf df locked e.1 = t)) =
      (playersOf df locked).countP (fun i =>
        (α.s i || α.b i) && decide (teamOf df locked i = t)) := by
  rw [extract, countP_extract]
  apply List.countP_congr
  intro i hi
  cases hs : α.s i <;> cases hb : α.b i <;> simp [hs, hb]

/-- C1: every squad returned by a feasible solve has exactly 15 entries,
11 of them tagged Starter and 4 tagged Bench (the spec's Reserves),
exactly 1 Bench entry of category GK, exactly 1 GK Starter, and the
(DEF, MID, FWD) counts among Starters equal to one of the 8 valid
formation triples. -/
theorem solve_squad_structure_valid (df : List Row) (budget : ℚ)
    (force_spend : Bool) (locked : List ℚ) (α : Assign)
    (sq : List (ℚ × Role))
    (hsat : Satisfies df budget force_spend locked α)
    (hret : solve_squad df budget force_spend locked
      (SolverOutcome.finished true α) = Except.ok (some sq)) :
    sq.length = 15 ∧
    sq.countP (fun e => decide (e.2 = Role.Starter)) = 11 ∧
    sq.countP (fun e => decide (e.2 = Role.Bench)) = 4 ∧
    sq.countP (fun e => decide (e.2 = Role.Bench) &&
      decide (posOf df locked e.1 = "GK")) = 1 ∧
    sq.countP (fun e => decide (e.2 = Role.Starter) &&
      decide (posOf df locked e.1 = "GK")) = 1 ∧
    ∃ f ∈ valid_formations,
      sq.countP (fun e => decide (e.2 = Role.Starter) &&
        decide (posOf df locked e.1 = "DEF")) = f.1 ∧
      sq.countP (fun e => decide (e.2 = Role.Starter) &&
        decide (posOf df locked e.1 = "MID")) = f.2.1 ∧
      sq.countP (fun e => decide (e.2 = Role.Starter) &&
        decide (posOf df locked e.1 = "FWD")) = f.2.2 := by
  obtain ⟨hlock, hbud, hforce, hphys, hs11, hb4, hbgk, hfone, hdef, hmid,
    hfwd, hsgk, hteam⟩ := hsat
  have hsq := solve_squad_ok df budget force_spend locked α sq hret
  subst hsq
  have hs11c : (playersOf df locked).countP (fun i => α.s i) = 11 := by
    rw [← sum_nval_eq_countP]
    exact hs11
  have hb4c : (playersOf df locked).countP (fun i => α.b i) = 4 := by
    rw [← sum_nval_eq_countP]
    exact hb4
  refine ⟨?_, ?_, ?_, ?_, ?_, ?_⟩
  · rw [extract, length_extract_countP, countP_or_of_excl α _ hphys,
      hs11c, hb4c]
  · rw [extract_starter_count]
    exact hs11c
  · rw [extract_bench_count df locked α hphys]
    exact hb4c
  · rw [extract_bench_pos_count df locked α "GK" hphys,
      ← sum_nval_eq_countP]
    exact hbgk
  · rw [extract_starter_pos_count df locked α "GK", ← sum_nval_eq_countP]
    exact hsgk
  · have hfc : valid_formations.countP (fun f => α.fv f) = 1 := by
      rw [← sum_nval_eq_countP]
      exact hfone
    obtain ⟨f, hfmem, hft, hsum⟩ :=
      sum_weight_of_countP_one valid_formations _ hfc
    refine ⟨f, hfmem, ?_, ?_, ?_⟩
    · rw [extract_starter_pos_count df locked α "DEF", ← sum_nval_eq_countP]
      exact hdef.trans (hsum (fun v => v.1))
    · rw [extract_starter_pos_count df locked α "MID", ← sum_nval_eq_countP]
      exact hmid.trans (hsum (fun v => v.2.1))
    · rw [extract_starter_pos_count df locked α "FWD", ← sum_nval_eq_countP]
      exact hfwd.trans (hsum (fun v => v.2.2))

theorem solve_squad_structure_valid_witness :
    Satisfies wDf 100 false [] wAssign ∧ wSq.length = 15 :=
  ⟨wSat,
    (solve_squad_structure_valid wDf 100 false [] wAssign wSq wSat rfl).1⟩

/-- C2: the cost of the 15 selected candidates of a feasible solve never
exceeds the budget; with the force-full-spend flag set it is moreover at
least budget − 1.0. -/
theorem solve_squad_budget (df : List Row) (budget : ℚ)
    (force_spend : Bool) (locked : List ℚ) (α : Assign)
    (sq : List (ℚ × Role))
    (hsat : Satisfies df budget force_spend locked α)
    (hret : solve_squad df budget force_spend locked
      (SolverOutcome.finished true α) = Except.ok (some sq)) :
    (sq.map (fun e => costOf df locked e.1)).sum ≤ budget ∧
    (force_spend = true →
      budget - 1.0 ≤ (sq.map (fun e => costOf df locked e.1)).sum) := by
  obtain ⟨hlock, hbud, hforce, hphys, _⟩ := hsat
  have hsq := solve_squad_ok df budget force_spend locked α sq hret
  subst hsq
  have he : ((extract df locked α).map
      (fun e => costOf df locked e.1)).sum = totalCost df locked α := by
    rw [extract, totalCost]
    exact sum_cost_extract α (costOf df locked) (playersOf df locked) hphys
  rw [he]
  exact ⟨hbud, hforce⟩

theorem solve_squad_budget_witness :
    Satisfies wDf 100 false [] wAssign ∧
    (wSq.map (fun e => costOf wDf [] e.1)).sum ≤ 100 :=
  ⟨wSat, (solve_squad_budget wDf 100 false [] wAssign wSq wSat rfl).1⟩

/-- C3: in a feasible solve no group contributes more than its cap: 2
selected candidates normally, raised to exactly 3 for a group to which
more than 2 of the supplied locked ids (that are in the pool) belong. -/
theorem solve_squad_team_cap (df : List Row) (budget : ℚ)
    (force_spend : Bool) (locked : List ℚ) (α : Assign)
    (sq : List (ℚ × Role))
    (hsat : Satisfies df budget force_spend locked α)
    (hret : solve_squad df budget force_spend locked
      (SolverOutcome.finished true α) = Except.ok (some sq)) :
    ∀ t : String,
      sq.countP (fun e => decide (teamOf df locked e.1 = t)) ≤
        teamLimitOf df locked t := by
  obtain ⟨hlock, hbud, hforce, hphys, hs11, hb4, hbgk, hfone, hdef, hmid,
    hfwd, hsgk, hteam⟩ := hsat
  have hsq := solve_squad_ok df budget force_spend locked α sq hret
  subst hsq
  intro t
  rw [extract_team_count df locked α t]
  by_cases ht :
      t ∈ ((poolOf df locked).map (fun r => getStr r "team_name")).dedup
  · have hc := hteam t ht
    rw [← List.countP_filter]
    refine le_trans ?_ hc
    rw [← sum_nval_eq_countP]
    apply List.sum_le_sum
    intro i hi
    cases hs : α.s i <;> cases hb : α.b i <;> simp [nval, hs, hb]
  · have hz : (playersOf df locked).countP (fun i =>
        (α.s i || α.b i) && decide (teamOf df locked i = t)) = 0 := by
      rw [List.countP_eq_zero]
      intro i hi hcon
      simp only [Bool.and_eq_true, decide_eq_true_eq] at hcon
      obtain ⟨r, hr, hid, hcol⟩ :=
        dictStr_mem (poolOf df locked) "team_name" i hi
      apply ht
      rw [List.mem_dedup]
      refine List.mem_map.mpr ⟨r, hr, ?_⟩
      exact hcol.symm.trans hcon.2
    rw [hz]
    exact Nat.zero_le _

theorem solve_squad_team_cap_witness :
    Satisfies wDf 100 false [] wAssign ∧
    wSq.countP (fun e => decide (teamOf wDf [] e.1 = "T1")) ≤
      teamLimitOf wDf [] "T1" :=
  ⟨wSat, solve_squad_team_cap wDf 100 false [] wAssign wSq wSat rfl "T1"⟩

/-- C4 counterexample: a locked id absent from the candidate roster is
silently skipped by the membership check, so a feasible solve returns a
squad in which that supplied locked id appears in no role at all —
contradicting "every locked id supplied appears among Starters". -/
theorem solve_squad_locked_nonmember_cex :
    (99 : ℚ) ∈ ([99] : List ℚ) ∧
    Satisfies wDf 100 false [99] wAssign ∧
    solve_squad wDf 100 false [99] (SolverOutcome.finished true wAssign) =
      Except.ok (some wSq99) ∧
    ((99 : ℚ), Role.Starter) ∉ wSq99 ∧ ((99 : ℚ), Role.Bench) ∉ wSq99 :=
  ⟨by decide, wSat99, rfl, by decide, by decide⟩

/-- C4 (amended): every supplied locked id that is a member of the
candidate roster appears in the squad of a feasible solve tagged as a
Starter and never as a Bench entry; a supplied locked id that fails the
roster-membership check is skipped and does not appear. -/
theorem solve_squad_locked_starters (df : List Row) (budget : ℚ)
    (force_spend : Bool) (locked : List ℚ) (α : Assign)
    (sq : List (ℚ × Role)) (pid : ℚ)
    (hsat : Satisfies df budget force_spend locked α)
    (hret : solve_squad df budget force_spend locked
      (SolverOutcome.finished true α) = Except.ok (some sq))
    (hl : pid ∈ locked) (hros : pid ∈ rosterIds df) :
    (pid, Role.Starter) ∈ sq ∧ (pid, Role.Bench) ∉ sq := by
  have hsq := solve_squad_ok df budget force_spend locked α sq hret
  subst hsq
  have hpl : pid ∈ playersOf df locked :=
    locked_mem_players df locked pid hl hros
  have hs : α.s pid = true := hsat.1 pid hl hpl
  constructor
  · refine List.mem_filterMap.mpr ⟨pid, hpl, ?_⟩
    simp [extractFn, hs]
  · intro hmem
    obtain ⟨a, ha, hfa⟩ := List.mem_filterMap.mp hmem
    by_cases hsa : α.s a = true
    · simp [extractFn, hsa] at hfa
    · by_cases hba : α.b a = true
      · simp [extractFn, hsa, hba] at hfa
        rw [hfa] at hsa
        exact hsa hs
      · simp [extractFn, hsa, hba] at hfa

theorem solve_squad_locked_starters_witness :
    (Satisfies wDf 100 false [1] wAssign ∧ (1 : ℚ) ∈ ([1] : List ℚ) ∧
      (1 : ℚ) ∈ rosterIds wDf) ∧
    ((1 : ℚ), Role.Starter) ∈ wSq1 :=
  ⟨⟨wSat1, by decide, by decide⟩,
    (solve_squad_locked_starters wDf 100 false [1] wAssign wSq1 1 wSat1 rfl
      (by decide) (by decide)).1⟩

/-- C10: when more than 11 distinct locked ids present in the roster are
supplied, no assignment satisfies the model (each such id is forced to
start while exactly 11 start), so a sound solver run never yields a
squad: `solve_squad` returns the failure indicator or an error. -/
theorem too_many_locks_infeasible (df : List Row) (budget : ℚ)
    (force_spend : Bool) (locked : List ℚ)
    (h : 11 < distinctLockedInRoster df locked) :
    (∀ α, ¬ Satisfies df budget force_spend locked α) ∧
    (∀ out : SolverOutcome,
      (∀ α, out = SolverOutcome.finished true α →
        Satisfies df budget force_spend locked α) →
      ∀ sq, solve_squad df budget force_spend locked out ≠
        Except.ok (some sq)) := by
  have key : ∀ α, ¬ Satisfies df budget force_spend locked α := by
    intro α hsat
    obtain ⟨hlock, _, _, _, hs11, _, _, _, _, _, _, _, _⟩ := hsat
    have hmem : ∀ x ∈ locked.dedup.filter
        (fun pid => decide (pid ∈ rosterIds df)),
        x ∈ playersOf df locked ∧ α.s x = true := by
      intro x hx
      rw [List.mem_filter] at hx
      obtain ⟨hxd, hxr⟩ := hx
      have hxl : x ∈ locked := List.mem_dedup.mp hxd
      have hpl := locked_mem_players df locked x hxl (of_decide_eq_true hxr)
      exact ⟨hpl, hlock x hxl hpl⟩
    have hnd : (locked.dedup.filter
        (fun pid => decide (pid ∈ rosterIds df))).Nodup :=
      List.Nodup.filter _ (List.nodup_dedup locked)
    have hle := nodup_length_le_countP _ (playersOf df locked)
      (fun i => α.s i) hnd hmem
    have hc : (playersOf df locked).countP (fun i => α.s i) = 11 := by
      rw [← sum_nval_eq_countP]
      exact hs11
    rw [hc] at hle
    have hd : distinctLockedInRoster df locked ≤ 11 := hle
    omega
  refine ⟨key, ?_⟩
  intro out hsound sq heq
  cases out with
  | envError => simp [solve_squad] at heq
  | finished optimal α =>
    cases optimal with
    | false => simp [solve_squad] at heq
    | true => exact key α (hsound α rfl)

theorem too_many_locks_infeasible_witness :
    11 < distinctLockedInRoster wDf wLocked12 ∧
    (∀ α, ¬ Satisfies wDf 100 false wLocked12 α) :=
  ⟨by decide,
    (too_many_locks_infeasible wDf 100 false wLocked12 (by decide)).1⟩

end FplOpt
